import Mathlib

/-!
# WhirledTalk server core: a shallow embedding in Lean 4

This file embeds the server core of the WhirledTalk real-time chat
application (`server/routes.ts`, `server/storage.ts`, `shared/schema.ts`)
and proves properties of the embedded operations.

Modelling conventions:
- JavaScript `Map`s become association lists with `mapGet` / `mapSet` /
  `mapDelete` mirroring `Map.get` / `Map.set` / `Map.delete` semantics
  (insertion order preserved, `set` of an existing key updates in place).
- `Date.now()` timestamps are `Int` milliseconds, passed explicitly.
- Possibly-`undefined` fields become `Option`; JavaScript truthiness of
  strings and numbers (`""` / `0` falsy) is modelled explicitly where the
  source relies on it.
- `Math.random()`-derived values are passed as parameters.
- Strings are manipulated through their `List Char` data; the regexes of
  the source are implemented as character-list scanners with the exact
  semantics of the original patterns (`.` not matching line terminators,
  `\s` matching the JS whitespace class, left-to-right global replace).
-/

namespace WhirledTalk

/-! ## Association-list maps mirroring JavaScript `Map` -/

/-- `Map.get`: value of the first entry with the given key. -/
def mapGet {K V : Type} [DecidableEq K] : List (K × V) → K → Option V
  | [], _ => none
  | (k', v) :: rest, k => if k' = k then some v else mapGet rest k

/-- `Map.set`: update the first entry with the key in place, else append. -/
def mapSet {K V : Type} [DecidableEq K] : List (K × V) → K → V → List (K × V)
  | [], k, v => [(k, v)]
  | (k', v') :: rest, k, v =>
    if k' = k then (k, v) :: rest else (k', v') :: mapSet rest k v

/-- `Map.delete`: remove the first entry with the given key. -/
def mapDelete {K V : Type} [DecidableEq K] : List (K × V) → K → List (K × V)
  | [], _ => []
  | (k', v') :: rest, k =>
    if k' = k then rest else (k', v') :: mapDelete rest k

/-! ## Data model (`shared/schema.ts`) -/

/-- `UserSession` from `shared/schema.ts`. -/
structure UserSession where
  sessionId : String
  username : String
  room : String
  browserFingerprint : String
  lastSeen : Int
  connectionCount : Nat
deriving DecidableEq, Repr

/-- Frame discriminant of `wsMessageSchema`. -/
inductive MsgType
  | keystroke
  | newMessage
  | join
  | leave
  | nameError
deriving DecidableEq, Repr

/-- A validated inbound WebSocket frame (`wsMessageSchema.parse` result). -/
structure WSMessage where
  type : MsgType
  username : String
  content : Option String := none
  room : String := "global"
  isTyping : Option Bool := none
  xPosition : Option Int := none
  yPosition : Option Int := none
  userColor : Option String := none
  fontSize : Option String := none
  sessionId : Option String := none
  browserFingerprint : Option String := none
  sourceUrl : Option String := none
  sourceLabel : Option String := none
  storyUrl : Option String := none
  storyLabel : Option String := none
  serverPrepared : Option Bool := none
deriving DecidableEq, Repr

/-- An outbound frame as built by the broadcast sites in `routes.ts`. -/
structure OutFrame where
  type : MsgType
  username : String
  content : Option String := none
  room : String := "global"
  isTyping : Option Bool := none
  xPosition : Option Int := none
  yPosition : Option Int := none
  userColor : Option String := none
  fontSize : Option String := none
  sourceUrl : Option String := none
  sourceLabel : Option String := none
  storyUrl : Option String := none
  storyLabel : Option String := none
  serverPrepared : Option Bool := none
deriving DecidableEq, Repr

/-- Argument of `storage.addMessage` (`InsertMessage` plus relay extras). -/
structure InsertMessage where
  username : String
  content : String
  room : String
  isTyping : Bool
  xPosition : Int
  yPosition : Int
  sourceUrl : Option String := none
  sourceLabel : Option String := none
  storyUrl : Option String := none
  storyLabel : Option String := none
deriving DecidableEq, Repr

/-- Observable side effects of the connection handler and the relay. -/
inductive Effect
  | nameError (username room error : String)
  | broadcast (room : String) (frame : OutFrame)
  | append (message : InsertMessage)
deriving DecidableEq, Repr

/-- Shared server state: `activeSessions` and `usernameOwnership`
(`routes.ts` lines 18-19). -/
structure ServerState where
  activeSessions : List (String × UserSession) := []
  usernameOwnership : List (String × String) := []
deriving DecidableEq, Repr

/-- `SESSION_TIMEOUT = 30 * 60 * 1000`. -/
def SESSION_TIMEOUT : Int := 30 * 60 * 1000

/-- The ownership key template string `room:username`. -/
def ownershipKey (room username : String) : String :=
  room ++ ":" ++ username

/-! ## Session Registry (`routes.ts` lines 76-140) -/

/-- `validateNameOwnership` result: `{allowed: true}` or
`{allowed: false, error}`. -/
inductive ValidationResult
  | allowed
  | denied (error : String)
deriving DecidableEq, Repr

/-- The name-taken error message built in `validateNameOwnership`. -/
def nameTakenError (username : String) : String :=
  "Username \"" ++ username ++ "\" is already taken by another user in this room."

/-- `validateNameOwnership` (`routes.ts` lines 91-122).  Returns the result
together with the (possibly mutated) server state: the only mutation is
the release of a stale ownership entry whose owner session is gone. -/
def validateNameOwnership (username room sessionId browserFingerprint : String)
    (st : ServerState) : ValidationResult × ServerState :=
  let key := ownershipKey room username
  match mapGet st.usernameOwnership key with
  | none => (.allowed, st)
  | some currentOwner =>
    match mapGet st.activeSessions currentOwner with
    | none =>
      (.allowed,
       { st with usernameOwnership := mapDelete st.usernameOwnership key })
    | some ownerSession =>
      if currentOwner = sessionId then (.allowed, st)
      else if ownerSession.browserFingerprint = browserFingerprint then (.allowed, st)
      else (.denied (nameTakenError username), st)

/-- `claimUsername` (`routes.ts` lines 124-140). -/
def claimUsername (username room sessionId browserFingerprint : String)
    (now : Int) (st : ServerState) : ServerState :=
  let key := ownershipKey room username
  let connectionCount :=
    (match mapGet st.activeSessions sessionId with
     | some s => s.connectionCount
     | none => 0) + 1
  let session : UserSession :=
    { sessionId, username, room, browserFingerprint, lastSeen := now, connectionCount }
  { st with
    activeSessions := mapSet st.activeSessions sessionId session,
    usernameOwnership := mapSet st.usernameOwnership key sessionId }

/-- One iteration of the expiry sweep body (`routes.ts` lines 78-86),
applied to one `(sessionId, session)` entry of the iteration snapshot. -/
def sweepStep (now : Int) (st : ServerState) (entry : String × UserSession) :
    ServerState :=
  if SESSION_TIMEOUT < now - entry.2.lastSeen then
    let key := ownershipKey entry.2.room entry.2.username
    let st1 :=
      if mapGet st.usernameOwnership key = some entry.1 then
        { st with usernameOwnership := mapDelete st.usernameOwnership key }
      else st
    { st1 with activeSessions := mapDelete st1.activeSessions entry.1 }
  else st

/-- The periodic session-expiry sweep (`routes.ts` lines 76-88): iterate
over the entries of `activeSessions`, releasing ownership and deleting
each expired session. -/
def sweepSessions (now : Int) (st : ServerState) : ServerState :=
  st.activeSessions.foldl (sweepStep now) st

/-! ## Rate/Content Guard (`routes.ts` lines 243-267, 351-372) -/

/-- Per-connection state attached to the WebSocket
(`ExtendedWebSocket`, `routes.ts` lines 7-15). -/
structure Conn where
  username : Option String := none
  room : String := "global"
  sessionId : Option String := none
  browserFingerprint : Option String := none
  lastMessageTime : Option Int := none
  messageCount : Option Nat := none
  lastResetTime : Option Int := none
deriving DecidableEq, Repr

/-- JavaScript truthiness of a possibly-undefined number (`0` is falsy). -/
def jsTruthyInt : Option Int → Bool
  | none => false
  | some t => t != 0

/-- JavaScript truthiness of a possibly-undefined string (`""` is falsy). -/
def jsTruthyStr : Option String → Bool
  | none => false
  | some s => s != ""

/-- `a || b` on strings under JS truthiness. -/
def jsOrS (a b : String) : String := if a = "" then b else a

/-- `checkRateLimit` (`routes.ts` lines 243-267): minimum 50ms interval
since the last accepted frame, then a 60s window capped at 50 frames. -/
def checkRateLimit (now : Int) (c : Conn) : Bool × Conn :=
  if jsTruthyInt c.lastMessageTime && decide (now - c.lastMessageTime.getD 0 < 50) then
    (false, c)
  else
    let c1 :=
      if !jsTruthyInt c.lastResetTime || decide (60000 < now - c.lastResetTime.getD 0) then
        { c with messageCount := some 0, lastResetTime := some now }
      else c
    let c2 := { c1 with messageCount := some (c1.messageCount.getD 0 + 1) }
    if 50 < c2.messageCount.getD 0 then (false, c2) else (true, c2)

/-- The JavaScript `\s` character class (WhiteSpace plus LineTerminator),
as used both by the `/\s+/` replaces and the `[^a-zA-Z0-9\s]` counter. -/
def isJsWhitespace (c : Char) : Bool :=
  c = ' ' || c = '\t' || c = '\n' || c = '\x0b' || c = '\x0c' || c = '\r' ||
  c = '\u00a0' || c = '\u1680' ||
  ('\u2000' ≤ c && c ≤ '\u200a') ||
  c = '\u2028' || c = '\u2029' || c = '\u202f' || c = '\u205f' ||
  c = '\u3000' || c = '\ufeff'

/-- `[a-zA-Z0-9]`. -/
def isAsciiAlphanum (c : Char) : Bool :=
  ('a' ≤ c && c ≤ 'z') || ('A' ≤ c && c ≤ 'Z') || ('0' ≤ c && c ≤ '9')

/-- The characters the regex metacharacter `.` does not match
(ECMAScript LineTerminator set). -/
def isLineTerminator (c : Char) : Bool :=
  c = '\n' || c = '\r' || c = '\u2028' || c = '\u2029'

/-- Number of matches of `[^a-zA-Z0-9\s]` in the content
(`routes.ts` line 367). -/
def specialCount (l : List Char) : Nat :=
  (l.filter (fun c => !isAsciiAlphanum c && !isJsWhitespace c)).length

/-- Does a maximal run of `n` copies of `c` trigger `/(.)\1{10,}/`?
The run must have length at least 11 and `(.)` cannot capture a line
terminator. -/
def runTriggers (c : Char) (n : Nat) : Bool :=
  11 ≤ n && !isLineTerminator c

/-- Helper for `hasLongRun`: scanning with the current run's character
and length. -/
def hasLongRunAux (c : Char) (n : Nat) : List Char → Bool
  | [] => runTriggers c n
  | d :: rest =>
    if d = c then hasLongRunAux c (n + 1) rest
    else runTriggers c n || hasLongRunAux d 1 rest

/-- `/(.)\1{10,}/.test(content)` (`routes.ts` lines 360-361): some
character other than a line terminator repeats at least 11 times
consecutively. -/
def hasLongRun : List Char → Bool
  | [] => false
  | c :: rest => hasLongRunAux c 1 rest

/-- The three content heuristics in order (`routes.ts` lines 352-372),
guarded by `if (validatedMessage.content)` (empty string is falsy). -/
def contentRejected : Option String → Bool
  | none => false
  | some c =>
    if c = "" then false
    else if 200 < c.data.length then true
    else if hasLongRun c.data then true
    else if c.data.length < 2 * specialCount c.data then true
    else false

/-! ## Connection handler (`routes.ts` lines 283-452) -/

/-- `if (validatedMessage.content)` truthiness. -/
def contentTruthy : Option String → Bool
  | none => false
  | some c => c != ""

/-- Update `session.lastSeen` for the connection's session
(`routes.ts` lines 374-379). -/
def updateLastSeen (now : Int) (conn : Conn) (st : ServerState) : ServerState :=
  if jsTruthyStr conn.sessionId then
    match mapGet st.activeSessions (conn.sessionId.getD "") with
    | some s =>
      { st with activeSessions :=
          mapSet st.activeSessions (conn.sessionId.getD "") { s with lastSeen := now } }
    | none => st
  else st

/-- The `switch (validatedMessage.type)` broadcast/persist block
(`routes.ts` lines 385-448). -/
def switchEffects (m : WSMessage) : List Effect :=
  match m.type with
  | .keystroke =>
    [.broadcast m.room
      { type := .keystroke, username := m.username, content := m.content,
        room := m.room, isTyping := m.isTyping, yPosition := m.yPosition,
        userColor := m.userColor, fontSize := m.fontSize }]
  | .newMessage =>
    (if contentTruthy m.content && m.yPosition.isSome then
      [.append
        { username := m.username, content := m.content.getD "", room := m.room,
          isTyping := false, xPosition := m.xPosition.getD 0,
          yPosition := m.yPosition.getD 0, sourceUrl := m.sourceUrl,
          sourceLabel := m.sourceLabel, storyUrl := m.storyUrl,
          storyLabel := m.storyLabel }]
     else []) ++
    [.broadcast m.room
      { type := .newMessage, username := m.username, content := m.content,
        room := m.room, xPosition := m.xPosition, yPosition := m.yPosition,
        userColor := m.userColor, fontSize := m.fontSize,
        sourceUrl := m.sourceUrl, sourceLabel := m.sourceLabel,
        storyUrl := m.storyUrl, storyLabel := m.storyLabel,
        serverPrepared := m.serverPrepared }]
  | .join =>
    [.broadcast m.room { type := .join, username := m.username, room := m.room }]
  | .leave =>
    [.broadcast m.room { type := .leave, username := m.username, room := m.room }]
  | .nameError => []

/-- Tail of the message handler after session validation: content
heuristics (`routes.ts` lines 351-372), `lastSeen` update, connection
field updates, and the type switch. -/
def finishMessage (now : Int) (m : WSMessage) (conn : Conn) (st : ServerState) :
    Conn × ServerState × List Effect :=
  if contentRejected m.content then (conn, st, [])
  else
    let st2 := updateLastSeen now conn st
    let conn2 :=
      { conn with username := some m.username, room := m.room,
                  lastMessageTime := some now }
    (conn2, st2, switchEffects m)

/-- The session/username validation half of the handler
(`routes.ts` lines 296-349) followed by `finishMessage`.
`genSessionId` stands for the server-generated session id. -/
def handleFrame (now : Int) (m : WSMessage) (genSessionId : String)
    (conn : Conn) (st : ServerState) : Conn × ServerState × List Effect :=
  if m.username = "" then finishMessage now m conn st
  else if m.type = .join then
    let sessionId := jsOrS (m.sessionId.getD "") genSessionId
    let fingerprint := jsOrS (m.browserFingerprint.getD "") "unknown"
    match validateNameOwnership m.username m.room sessionId fingerprint st with
    | (.denied err, st1) => (conn, st1, [.nameError m.username m.room err])
    | (.allowed, st1) =>
      let st2 := claimUsername m.username m.room sessionId fingerprint now st1
      let conn2 :=
        { conn with sessionId := some sessionId, browserFingerprint := some fingerprint }
      finishMessage now m conn2 st2
  else if jsTruthyStr conn.sessionId && jsTruthyStr conn.browserFingerprint then
    match validateNameOwnership m.username m.room (conn.sessionId.getD "")
        (conn.browserFingerprint.getD "") st with
    | (.denied err, st1) => (conn, st1, [.nameError m.username m.room err])
    | (.allowed, st1) => finishMessage now m conn st1
  else finishMessage now m conn st

/-- The full `ws.on('message')` handler (`routes.ts` lines 283-452):
rate-limit gate, parse (a `none` frame models a parse/validation throw),
then `handleFrame`. -/
def handleMessage (now : Int) (frame : Option WSMessage) (genSessionId : String)
    (conn : Conn) (st : ServerState) : Conn × ServerState × List Effect :=
  match checkRateLimit now conn with
  | (false, conn1) => (conn1, st, [])
  | (true, conn1) =>
    match frame with
    | none => (conn1, st, [])
    | some m => handleFrame now m genSessionId conn1 st

/-! ## HTML text pipeline (`routes.ts` lines 34-63)

Each JavaScript `.replace(regex, repl)` pass is a left-to-right scan
over the character list; replacement text is not rescanned.  Scanners
that skip more than one character per step take a fuel argument equal to
the input length, which always suffices because every step consumes at
least one input character. -/

/-- One global fixed-string replace pass (`String.prototype.replace` with
a literal global regex). -/
def replaceAllAux (p : Char) (pt repl : List Char) : Nat → List Char → List Char
  | 0, s => s
  | _ + 1, [] => []
  | fuel + 1, c :: rest =>
    if (p :: pt).isPrefixOf (c :: rest) then
      repl ++ replaceAllAux p pt repl fuel (rest.drop pt.length)
    else c :: replaceAllAux p pt repl fuel rest

/-- Replace every occurrence of `pat` in `s` by `repl`. -/
def replaceAll (pat repl s : List Char) : List Char :=
  match pat with
  | [] => s
  | p :: pt => replaceAllAux p pt repl s.length s

/-- `decodeEntities` (`routes.ts` lines 34-41): six chained entity
replaces, in source order. -/
def decodeEntities (s : List Char) : List Char :=
  replaceAll "&gt;".data ">".data
    (replaceAll "&lt;".data "<".data
      (replaceAll "&amp;".data "&".data
        (replaceAll "&quot;".data "\"".data
          (replaceAll "&#39;".data "'".data
            (replaceAll "&#x27;".data "'".data s)))))

/-- After a `<`, find the match of `[^>]+>`: at least one non-`>`
character, then the closing `>`; returns the remainder. -/
def tagEndCont : List Char → Option (List Char)
  | [] => none
  | c :: rest => if c = '>' then some rest else tagEndCont rest

/-- The `[^>]+>` tail of `/<[^>]+>/` starting right after the `<`. -/
def tagEnd : List Char → Option (List Char)
  | [] => none
  | c :: rest => if c = '>' then none else tagEndCont rest

/-- `/<[^>]+>/g` replaced by a single space. -/
def removeTagsAux : Nat → List Char → List Char
  | 0, s => s
  | _ + 1, [] => []
  | fuel + 1, c :: rest =>
    if c = '<' then
      match tagEnd rest with
      | some rem => ' ' :: removeTagsAux fuel rem
      | none => '<' :: removeTagsAux fuel rest
    else c :: removeTagsAux fuel rest

/-- Replace every HTML tag with a space. -/
def removeTags (s : List Char) : List Char := removeTagsAux s.length s

/-- `/\s+/g` replaced by a single space. -/
def collapseWsAux : Nat → List Char → List Char
  | 0, s => s
  | _ + 1, [] => []
  | fuel + 1, c :: rest =>
    if isJsWhitespace c then ' ' :: collapseWsAux fuel (rest.dropWhile isJsWhitespace)
    else c :: collapseWsAux fuel rest

/-- Collapse whitespace runs to single spaces. -/
def collapseWs (s : List Char) : List Char := collapseWsAux s.length s

/-- `String.prototype.trim`: strip leading and trailing whitespace. -/
def jsTrim (s : List Char) : List Char :=
  ((s.dropWhile isJsWhitespace).reverse.dropWhile isJsWhitespace).reverse

/-- `stripHtml` (`routes.ts` lines 43-47). -/
def stripHtml (s : List Char) : List Char :=
  jsTrim (collapseWs (removeTags (decodeEntities s)))

/-- `\s*` consumption. -/
def dropWs (l : List Char) : List Char := l.dropWhile isJsWhitespace

/-- Match the tail of `/<\s*br\s*\/?>/i` right after the `<`. -/
def matchBr (l : List Char) : Option (List Char) :=
  match dropWs l with
  | b :: r :: rest =>
    if (b = 'b' || b = 'B') && (r = 'r' || r = 'R') then
      match dropWs rest with
      | '/' :: '>' :: rem => some rem
      | '>' :: rem => some rem
      | _ => none
    else none
  | _ => none

/-- `/<\s*br\s*\/?>/gi` replaced by a newline. -/
def replaceBrAux : Nat → List Char → List Char
  | 0, s => s
  | _ + 1, [] => []
  | fuel + 1, c :: rest =>
    if c = '<' then
      match matchBr rest with
      | some rem => '\n' :: replaceBrAux fuel rem
      | none => '<' :: replaceBrAux fuel rest
    else c :: replaceBrAux fuel rest

/-- `<br>` variants become newlines. -/
def replaceBr (s : List Char) : List Char := replaceBrAux s.length s

/-- The block-level tag names of the closing-tag regex alternation, in
source order. -/
def blockTagNames : List (List Char) :=
  ["p".data, "div".data, "li".data, "blockquote".data,
   "h1".data, "h2".data, "h3".data, "h4".data, "h5".data, "h6".data]

/-- Try one alternation branch: the (lowercased) tag name, then `\s*>`. -/
def tryTagName (name l : List Char) : Option (List Char) :=
  if (l.take name.length).map Char.toLower = name then
    match dropWs (l.drop name.length) with
    | '>' :: rem => some rem
    | _ => none
  else none

/-- Try the alternation branches left to right. -/
def tryTagNames : List (List Char) → List Char → Option (List Char)
  | [], _ => none
  | n :: ns, l =>
    match tryTagName n l with
    | some r => some r
    | none => tryTagNames ns l

/-- Match the tail of `/<\/\s*(p|div|li|blockquote|h1|h2|h3|h4|h5|h6)\s*>/i`
right after the `<`. -/
def matchCloseTag : List Char → Option (List Char)
  | '/' :: rest => tryTagNames blockTagNames (dropWs rest)
  | _ => none

/-- The closing-block-tag regex replaced by two newlines, globally. -/
def replaceCloseAux : Nat → List Char → List Char
  | 0, s => s
  | _ + 1, [] => []
  | fuel + 1, c :: rest =>
    if c = '<' then
      match matchCloseTag rest with
      | some rem => '\n' :: '\n' :: replaceCloseAux fuel rem
      | none => '<' :: replaceCloseAux fuel rest
    else c :: replaceCloseAux fuel rest

/-- Closing block tags become paragraph breaks. -/
def replaceClose (s : List Char) : List Char := replaceCloseAux s.length s

/-- `[ \t]` as used by the trailing/leading indent regexes. -/
def isSpaceTab (c : Char) : Bool := c = ' ' || c = '\t'

/-- `/[ \t]+\n/g` replaced by `\n`. -/
def stripIndentBeforeNlAux : Nat → List Char → List Char
  | 0, s => s
  | _ + 1, [] => []
  | fuel + 1, c :: rest =>
    if isSpaceTab c then
      match rest.dropWhile isSpaceTab with
      | '\n' :: rem => '\n' :: stripIndentBeforeNlAux fuel rem
      | _ => c :: stripIndentBeforeNlAux fuel rest
    else c :: stripIndentBeforeNlAux fuel rest

/-- Strip space/tab runs that precede a newline. -/
def stripIndentBeforeNl (s : List Char) : List Char :=
  stripIndentBeforeNlAux s.length s

/-- `/\n[ \t]+/g` replaced by `\n`. -/
def stripIndentAfterNlAux : Nat → List Char → List Char
  | 0, s => s
  | _ + 1, [] => []
  | fuel + 1, c :: rest =>
    if c = '\n' then
      match rest with
      | d :: _ =>
        if isSpaceTab d then '\n' :: stripIndentAfterNlAux fuel (rest.dropWhile isSpaceTab)
        else '\n' :: stripIndentAfterNlAux fuel rest
      | [] => ['\n']
    else c :: stripIndentAfterNlAux fuel rest

/-- Strip space/tab runs that follow a newline. -/
def stripIndentAfterNl (s : List Char) : List Char :=
  stripIndentAfterNlAux s.length s

/-- `String.prototype.split(/\n{2,}/)`: cut at every maximal run of at
least two newlines. -/
def splitParasAux : Nat → List Char → List Char → List (List Char)
  | 0, cur, s => [cur.reverse ++ s]
  | _ + 1, cur, [] => [cur.reverse]
  | fuel + 1, cur, '\n' :: '\n' :: rest =>
    cur.reverse :: splitParasAux fuel [] (rest.dropWhile (· = '\n'))
  | fuel + 1, cur, c :: rest => splitParasAux fuel (c :: cur) rest

/-- Split into paragraphs at blank lines. -/
def splitParas (s : List Char) : List (List Char) :=
  splitParasAux s.length [] s

/-- `htmlToParagraphs` (`routes.ts` lines 49-63). -/
def htmlToParagraphs (s : List Char) : List (List Char) :=
  let normalized :=
    jsTrim (stripIndentAfterNl (stripIndentBeforeNl
      ((removeTags (replaceClose (replaceBr (decodeEntities s)))).filter (· ≠ '\r'))))
  ((splitParas normalized).map (fun line => jsTrim (collapseWs line))).filter (· ≠ [])

/-! ## Relay Scheduler / Hocker ingestion (`routes.ts` lines 153-240) -/

/-- `HockerLatestItem` (`routes.ts` lines 24-32).  `hnId = none` models a
missing or non-finite `hnId` (`Number.isFinite` failing); `none` in the
string fields models `undefined`/`null`. -/
structure HockerItem where
  hnId : Option Int := none
  type : Option String := none
  by_ : Option String := none
  title : Option String := none
  text : Option String := none
  url : Option String := none
  sourceUrl : Option String := none
deriving DecidableEq, Repr

/-- The dedup version fingerprint (`routes.ts` lines 158-165):
`[hnId, type || "", title || "", text || "", url || "", sourceUrl || ""].join("|")`. -/
def itemVersion (item : HockerItem) (hnId : Int) : String :=
  toString hnId ++ "|" ++ item.type.getD "" ++ "|" ++ item.title.getD "" ++ "|" ++
    item.text.getD "" ++ "|" ++ item.url.getD "" ++ "|" ++ item.sourceUrl.getD ""

/-- The relayed username `HN:${item.by || "unknown"}`. -/
def relayUsername (item : HockerItem) : String :=
  "HN:" ++ jsOrS (item.by_.getD "") "unknown"

/-- The final message text (`routes.ts` lines 178-181):
`titleLine || bodyText || fallback`. -/
def relayMessageText (item : HockerItem) (hnId : Int) : String :=
  let textParagraphs :=
    if jsTruthyStr item.text then htmlToParagraphs (item.text.getD "").data else []
  let titleLine := String.mk (stripHtml (item.title.getD "").data)
  let bodyText :=
    if textParagraphs ≠ [] then
      String.intercalate " " (textParagraphs.map String.mk)
    else ""
  jsOrS titleLine (jsOrS bodyText ("HN item #" ++ toString hnId))

/-- The relayed source URL: `item.sourceUrl || news.ycombinator fallback`. -/
def relaySourceUrl (item : HockerItem) (hnId : Int) : String :=
  jsOrS (item.sourceUrl.getD "")
    ("https://news.ycombinator.com/item?id=" ++ toString hnId)

/-- `item.type === "story" && item.url ? item.url : null`. -/
def relayStoryUrl (item : HockerItem) : Option String :=
  if item.type = some "story" && jsTruthyStr item.url then item.url else none

/-- The `storage.addMessage` argument built by `relayHockerItem`
(`routes.ts` lines 188-199).  `randY` is `Math.floor(18 + random*55)`,
`randX` is `Math.floor(140 + random*140)`. -/
def relayInsert (item : HockerItem) (hnId : Int) (room : String)
    (randY randX : Int) : InsertMessage :=
  { username := relayUsername item,
    content := relayMessageText item hnId,
    room := room,
    isTyping := false,
    xPosition := -randX,
    yPosition := min 85 randY,
    sourceUrl := some (relaySourceUrl item hnId),
    sourceLabel := some "HN",
    storyUrl := relayStoryUrl item,
    storyLabel := if (relayStoryUrl item).isSome then some "Story" else none }

/-- The terminal broadcast frame built by `relayHockerItem`
(`routes.ts` lines 201-213). -/
def relayBroadcastFrame (item : HockerItem) (hnId : Int) (room : String)
    (randY randX : Int) : OutFrame :=
  { type := .newMessage,
    username := relayUsername item,
    content := some (relayMessageText item hnId),
    room := room,
    xPosition := some (-randX),
    yPosition := some (min 85 randY),
    sourceUrl := some (relaySourceUrl item hnId),
    sourceLabel := some "HN",
    storyUrl := relayStoryUrl item,
    storyLabel := if (relayStoryUrl item).isSome then some "Story" else none,
    serverPrepared := some true }

/-- `relayHockerItem` (`routes.ts` lines 153-214): dedup-ledger check and
bounded eviction, then one store append and one `newMessage` broadcast.
Returns the updated `lastRelayedVersion` ledger and the emitted effects. -/
def relayHockerItem (item : HockerItem) (room : String) (randY randX : Int)
    (ledger : List (Int × String)) : List (Int × String) × List Effect :=
  match item.hnId with
  | none => (ledger, [])
  | some hnId =>
    let version := itemVersion item hnId
    if mapGet ledger hnId = some version then (ledger, [])
    else
      let ledger1 := mapSet ledger hnId version
      let ledger2 :=
        if 5000 < ledger1.length then
          match ledger1.head? with
          | some oldest => mapDelete ledger1 oldest.1
          | none => ledger1
        else ledger1
      (ledger2,
       [.append (relayInsert item hnId room randY randX),
        .broadcast room (relayBroadcastFrame item hnId room randY randX)])

/-- The request body of `POST /api/relay/hn-item`. -/
structure RelayPayload where
  item : Option HockerItem := none
  room : Option String := none
deriving DecidableEq, Repr

/-- The HTTP response of the ingestion endpoint. -/
inductive RelayResponse
  | ok (hnId : Int) (room : String)
  | unauthorized (error : String)
  | badRequest (error : String)
deriving DecidableEq, Repr

/-- The `POST /api/relay/hn-item` handler (`routes.ts` lines 216-240).
`pushToken` is `HOCKER_PUSH_TOKEN`, `reqToken` is
`req.header('x-hocker-token') || ""`, `defaultRoom` is
`HOCKER_RELAY_ROOM`. -/
def postHnItem (pushToken reqToken defaultRoom : String)
    (payload : Option RelayPayload) (randY randX : Int)
    (ledger : List (Int × String)) :
    RelayResponse × List (Int × String) × List Effect :=
  if pushToken ≠ "" ∧ reqToken ≠ pushToken then
    (.unauthorized "Unauthorized relay token", ledger, [])
  else
    match payload with
    | none => (.badRequest "Expected payload { item: { hnId, ... } }", ledger, [])
    | some p =>
      match p.item with
      | none => (.badRequest "Expected payload { item: { hnId, ... } }", ledger, [])
      | some item =>
        match item.hnId with
        | none => (.badRequest "Expected payload { item: { hnId, ... } }", ledger, [])
        | some hnId =>
          let room := jsOrS (p.room.getD "") defaultRoom
          let (ledger1, effects) := relayHockerItem item room randY randX ledger
          (.ok hnId room, ledger1, effects)

/-! ## Message Store (`server/storage.ts`) -/

/-- A stored message (`Message` of `shared/schema.ts`, fields relevant to
the store). -/
structure StoredMessage where
  id : Nat
  username : String
  content : String
  room : String
  timestamp : Int
  xPosition : Int
  yPosition : Int
deriving DecidableEq, Repr

/-- Stable insertion, descending by timestamp: the element goes in front
of the first entry whose timestamp is not larger, mirroring the stable
JavaScript `sort((a, b) => b.timestamp - a.timestamp)`. -/
def insertByTsDesc (m : StoredMessage) : List StoredMessage → List StoredMessage
  | [] => [m]
  | x :: rest =>
    if x.timestamp ≤ m.timestamp then m :: x :: rest
    else x :: insertByTsDesc m rest

/-- Stable sort, descending by timestamp. -/
def sortByTsDesc (l : List StoredMessage) : List StoredMessage :=
  l.foldr insertByTsDesc []

/-- `MemStorage.getRecentMessages` (`storage.ts` lines 24-31): filter the
room, sort newest first, take `limit`, and reverse into chronological
order. -/
def getRecentMessages (store : List StoredMessage) (room : String) (limit : Nat) :
    List StoredMessage :=
  (((sortByTsDesc (store.filter (fun m => m.room = room))).take limit)).reverse

/-! ## Effect observations -/

/-- Is the effect a store append or a room broadcast (any persistence or
fanout side effect)? -/
def isPersistOrFanout : Effect → Bool
  | .append _ => true
  | .broadcast _ _ => true
  | .nameError _ _ _ => false

/-- Is the effect a `keystroke` broadcast? -/
def isKeystrokeBroadcast : Effect → Bool
  | .broadcast _ f => f.type = MsgType.keystroke
  | _ => false

/-- Is the effect a store append? -/
def isAppend : Effect → Bool
  | .append _ => true
  | _ => false

/-! ## Lemmas about the association-list maps -/

theorem mapGet_set_self {K V : Type} [DecidableEq K] (l : List (K × V)) (k : K) (v : V) :
    mapGet (mapSet l k v) k = some v := by
  induction l with
  | nil => simp [mapSet, mapGet]
  | cons e rest ih =>
    obtain ⟨k', v'⟩ := e
    by_cases h : k' = k <;> simp [mapSet, mapGet, h, ih]

theorem mapGet_set_ne {K V : Type} [DecidableEq K] (l : List (K × V)) (k k' : K) (v : V)
    (h : k' ≠ k) : mapGet (mapSet l k v) k' = mapGet l k' := by
  induction l with
  | nil => simp [mapSet, mapGet, h, Ne.symm h]
  | cons e rest ih =>
    obtain ⟨k0, v0⟩ := e
    by_cases h0 : k0 = k
    · simp [mapSet, mapGet, h0, h, Ne.symm h]
    · by_cases h1 : k0 = k' <;> simp [mapSet, mapGet, h0, h1, h, ih]

theorem mapGet_delete_ne {K V : Type} [DecidableEq K] (l : List (K × V)) (k k' : K)
    (h : k' ≠ k) : mapGet (mapDelete l k) k' = mapGet l k' := by
  induction l with
  | nil => simp [mapDelete, mapGet]
  | cons e rest ih =>
    obtain ⟨k0, v0⟩ := e
    by_cases h0 : k0 = k
    · simp [mapDelete, mapGet, h0, h, Ne.symm h]
    · by_cases h1 : k0 = k' <;> simp [mapDelete, mapGet, h0, h1, h, ih]

theorem mapGet_eq_none_iff {K V : Type} [DecidableEq K] (l : List (K × V)) (k : K) :
    mapGet l k = none ↔ k ∉ l.map Prod.fst := by
  induction l with
  | nil => simp [mapGet]
  | cons e rest ih =>
    obtain ⟨k0, v0⟩ := e
    by_cases h0 : k0 = k
    · simp [mapGet, h0]
    · simp [mapGet, h0, Ne.symm h0, ih]

theorem mapGet_delete_self {K V : Type} [DecidableEq K] (l : List (K × V)) (k : K)
    (h : (l.map Prod.fst).Nodup) : mapGet (mapDelete l k) k = none := by
  induction l with
  | nil => simp [mapDelete, mapGet]
  | cons e rest ih =>
    obtain ⟨k0, v0⟩ := e
    simp only [List.map_cons, List.nodup_cons] at h
    by_cases h0 : k0 = k
    · subst h0
      simpa [mapDelete, mapGet_eq_none_iff] using h.1
    · simp [mapDelete, mapGet, h0, ih h.2]

theorem mem_keys_mapSet {K V : Type} [DecidableEq K] (l : List (K × V)) (k a : K) (v : V)
    (h : a ∈ (mapSet l k v).map Prod.fst) : a ∈ l.map Prod.fst ∨ a = k := by
  induction l with
  | nil => exact Or.inr (by simpa [mapSet] using h)
  | cons e rest ih =>
    obtain ⟨k0, v0⟩ := e
    by_cases h0 : k0 = k
    · subst h0
      rcases (by simpa [mapSet] using h : a = k0 ∨ a ∈ rest.map Prod.fst) with h | h
      · exact Or.inr h
      · exact Or.inl (List.mem_cons_of_mem _ h)
    · rcases (by simpa [mapSet, h0] using h : a = k0 ∨ a ∈ (mapSet rest k v).map Prod.fst)
        with h | h
      · exact Or.inl (List.mem_cons.mpr (Or.inl h))
      · rcases ih h with h' | h'
        · exact Or.inl (List.mem_cons_of_mem _ h')
        · exact Or.inr h'

theorem nodup_keys_mapSet {K V : Type} [DecidableEq K] (l : List (K × V)) (k : K) (v : V)
    (h : (l.map Prod.fst).Nodup) : ((mapSet l k v).map Prod.fst).Nodup := by
  induction l with
  | nil => simp [mapSet]
  | cons e rest ih =>
    obtain ⟨k0, v0⟩ := e
    simp only [List.map_cons, List.nodup_cons] at h
    by_cases h0 : k0 = k
    · subst h0
      have he : mapSet ((k0, v0) :: rest) k0 v = (k0, v) :: rest := by simp [mapSet]
      rw [he, List.map_cons]
      exact List.nodup_cons.mpr ⟨h.1, h.2⟩
    · have tail := ih h.2
      have head : k0 ∉ (mapSet rest k v).map Prod.fst := fun hmem => by
        rcases mem_keys_mapSet rest k k0 v hmem with h' | h'
        · exact h.1 h'
        · exact h0 h'
      have he : mapSet ((k0, v0) :: rest) k v = (k0, v0) :: mapSet rest k v := by
        simp [mapSet, h0]
      rw [he, List.map_cons]
      exact List.nodup_cons.mpr ⟨head, tail⟩

theorem keys_mapDelete_sublist {K V : Type} [DecidableEq K] (l : List (K × V)) (k : K) :
    List.Sublist ((mapDelete l k).map Prod.fst) (l.map Prod.fst) := by
  induction l with
  | nil => simp [mapDelete]
  | cons e rest ih =>
    obtain ⟨k0, v0⟩ := e
    by_cases h0 : k0 = k
    · simp only [mapDelete, if_pos h0, List.map_cons]
      exact List.sublist_cons_self k0 (rest.map Prod.fst)
    · simpa [mapDelete, h0] using ih.cons₂ k0

theorem nodup_keys_mapDelete {K V : Type} [DecidableEq K] (l : List (K × V)) (k : K)
    (h : (l.map Prod.fst).Nodup) : ((mapDelete l k).map Prod.fst).Nodup :=
  h.sublist (keys_mapDelete_sublist l k)

theorem nodup_keys_unique {K V : Type} [DecidableEq K] (l : List (K × V))
    (h : (l.map Prod.fst).Nodup) (k : K) (v1 v2 : V)
    (h1 : (k, v1) ∈ l) (h2 : (k, v2) ∈ l) : v1 = v2 := by
  induction l with
  | nil => cases h1
  | cons e rest ih =>
    obtain ⟨k0, v0⟩ := e
    simp only [List.map_cons, List.nodup_cons] at h
    rcases List.mem_cons.mp h1 with h1 | h1 <;> rcases List.mem_cons.mp h2 with h2 | h2
    · have := h1.trans h2.symm
      exact (Prod.ext_iff.mp this).2
    · have hk : k = k0 := (Prod.ext_iff.mp h1).1
      exact absurd (hk ▸ List.mem_map_of_mem Prod.fst h2) h.1
    · have hk : k = k0 := (Prod.ext_iff.mp h2).1
      exact absurd (hk ▸ List.mem_map_of_mem Prod.fst h1) h.1
    · exact ih h.2 h1 h2

/-! ## Ownership keys -/

theorem ownershipKey_inj (r u1 u2 : String) (h : ownershipKey r u1 = ownershipKey r u2) :
    u1 = u2 := by
  have hd : (r ++ ":").data ++ u1.data = (r ++ ":").data ++ u2.data := by
    have := congrArg String.data h
    simpa [ownershipKey, String.data_append] using this
  have : u1.data = u2.data := List.append_cancel_left hd
  cases u1; cases u2; exact congrArg String.mk this

/-! ## Reachability and the ownership invariant -/

/-- Both shared maps have no duplicate keys. -/
def goodState (st : ServerState) : Prop :=
  (st.activeSessions.map Prod.fst).Nodup ∧ (st.usernameOwnership.map Prod.fst).Nodup

/-- One mutation of the shared server state by any entry point of the
server core. -/
inductive Step : ServerState → ServerState → Prop
  | validate (username room sessionId fingerprint : String) (st : ServerState) :
      Step st (validateNameOwnership username room sessionId fingerprint st).2
  | claim (username room sessionId fingerprint : String) (now : Int) (st : ServerState) :
      Step st (claimUsername username room sessionId fingerprint now st)
  | sweep (now : Int) (st : ServerState) : Step st (sweepSessions now st)
  | handle (now : Int) (frame : Option WSMessage) (genSessionId : String)
      (conn : Conn) (st : ServerState) :
      Step st (handleMessage now frame genSessionId conn st).2.1

/-- Server states reachable from the initial empty maps. -/
inductive Reachable : ServerState → Prop
  | init : Reachable {}
  | step {st st' : ServerState} : Reachable st → Step st st' → Reachable st'

theorem validate_state_cases (u r sid fp : String) (st : ServerState) :
    (validateNameOwnership u r sid fp st).2 = st ∨
    (validateNameOwnership u r sid fp st).2 =
      { st with usernameOwnership := mapDelete st.usernameOwnership (ownershipKey r u) } := by
  cases h1 : mapGet st.usernameOwnership (ownershipKey r u) with
  | none => exact Or.inl (by simp [validateNameOwnership, h1])
  | some owner =>
    cases h2 : mapGet st.activeSessions owner with
    | none => exact Or.inr (by simp [validateNameOwnership, h1, h2])
    | some os =>
      by_cases h3 : owner = sid
      · subst h3
        exact Or.inl (by simp [validateNameOwnership, h1, h2])
      · by_cases h4 : os.browserFingerprint = fp
        · exact Or.inl (by simp [validateNameOwnership, h1, h2, h3, h4])
        · exact Or.inl (by simp [validateNameOwnership, h1, h2, h3, h4])

theorem goodState_validate (u r sid fp : String) (st : ServerState) (h : goodState st) :
    goodState (validateNameOwnership u r sid fp st).2 := by
  rcases validate_state_cases u r sid fp st with hc | hc <;> rw [hc]
  · exact h
  · exact ⟨h.1, nodup_keys_mapDelete _ _ h.2⟩

theorem goodState_claim (u r sid fp : String) (now : Int) (st : ServerState)
    (h : goodState st) : goodState (claimUsername u r sid fp now st) :=
  ⟨nodup_keys_mapSet _ _ _ h.1, nodup_keys_mapSet _ _ _ h.2⟩

theorem goodState_sweepStep (now : Int) (st : ServerState) (e : String × UserSession)
    (h : goodState st) : goodState (sweepStep now st e) := by
  unfold sweepStep
  by_cases h1 : SESSION_TIMEOUT < now - e.2.lastSeen
  · by_cases h2 :
      mapGet st.usernameOwnership (ownershipKey e.2.room e.2.username) = some e.1
    · simp only [if_pos h1, if_pos h2]
      exact ⟨nodup_keys_mapDelete _ _ h.1, nodup_keys_mapDelete _ _ h.2⟩
    · simp only [if_pos h1, if_neg h2]
      exact ⟨nodup_keys_mapDelete _ _ h.1, h.2⟩
  · simpa [if_neg h1] using h

theorem goodState_sweep_fold (now : Int) (entries : List (String × UserSession))
    (st : ServerState) (h : goodState st) :
    goodState (entries.foldl (sweepStep now) st) := by
  induction entries generalizing st with
  | nil => exact h
  | cons e rest ih => exact ih _ (goodState_sweepStep now st e h)

theorem goodState_sweep (now : Int) (st : ServerState) (h : goodState st) :
    goodState (sweepSessions now st) :=
  goodState_sweep_fold now st.activeSessions st h

theorem goodState_updateLastSeen (now : Int) (conn : Conn) (st : ServerState)
    (h : goodState st) : goodState (updateLastSeen now conn st) := by
  unfold updateLastSeen
  by_cases h1 : jsTruthyStr conn.sessionId = true
  · simp only [if_pos h1]
    cases h2 : mapGet st.activeSessions (conn.sessionId.getD "") with
    | none => exact h
    | some s => exact ⟨nodup_keys_mapSet _ _ _ h.1, h.2⟩
  · simp only [if_neg h1]
    exact h

theorem goodState_finishMessage (now : Int) (m : WSMessage) (conn : Conn)
    (st : ServerState) (h : goodState st) :
    goodState (finishMessage now m conn st).2.1 := by
  unfold finishMessage
  by_cases h1 : contentRejected m.content = true
  · simpa [h1] using h
  · simpa [h1] using goodState_updateLastSeen now conn st h

theorem goodState_handleFrame (now : Int) (m : WSMessage) (genSessionId : String)
    (conn : Conn) (st : ServerState) (h : goodState st) :
    goodState (handleFrame now m genSessionId conn st).2.1 := by
  unfold handleFrame
  by_cases h1 : m.username = ""
  · simpa [h1] using goodState_finishMessage now m conn st h
  · by_cases h2 : m.type = MsgType.join
    · simp only [if_neg h1, if_pos h2]
      cases h3 : validateNameOwnership m.username m.room
          (jsOrS (m.sessionId.getD "") genSessionId)
          (jsOrS (m.browserFingerprint.getD "") "unknown") st with
      | mk res st1 =>
        have hst1 : goodState st1 := by
          have := goodState_validate m.username m.room
            (jsOrS (m.sessionId.getD "") genSessionId)
            (jsOrS (m.browserFingerprint.getD "") "unknown") st h
          rwa [h3] at this
        cases res with
        | denied err => exact hst1
        | allowed =>
          exact goodState_finishMessage now m _ _ (goodState_claim _ _ _ _ _ _ hst1)
    · simp only [if_neg h1, if_neg h2]
      by_cases h4 :
          (jsTruthyStr conn.sessionId && jsTruthyStr conn.browserFingerprint) = true
      · simp only [if_pos h4]
        cases h3 : validateNameOwnership m.username m.room (conn.sessionId.getD "")
            (conn.browserFingerprint.getD "") st with
        | mk res st1 =>
          have hst1 : goodState st1 := by
            have := goodState_validate m.username m.room (conn.sessionId.getD "")
              (conn.browserFingerprint.getD "") st h
            rwa [h3] at this
          cases res with
          | denied err => exact hst1
          | allowed => exact goodState_finishMessage now m conn st1 hst1
      · simp only [if_neg h4]
        exact goodState_finishMessage now m conn st h

theorem goodState_handleMessage (now : Int) (frame : Option WSMessage)
    (genSessionId : String) (conn : Conn) (st : ServerState) (h : goodState st) :
    goodState (handleMessage now frame genSessionId conn st).2.1 := by
  unfold handleMessage
  cases hr : checkRateLimit now conn with
  | mk ok conn1 =>
    cases ok
    · exact h
    · cases frame with
      | none => exact h
      | some m => exact goodState_handleFrame now m genSessionId conn1 st h

theorem goodState_step {st st' : ServerState} (hstep : Step st st') (h : goodState st) :
    goodState st' := by
  cases hstep with
  | validate u r sid fp st => exact goodState_validate u r sid fp st h
  | claim u r sid fp now st => exact goodState_claim u r sid fp now st h
  | sweep now st => exact goodState_sweep now st h
  | handle now frame gen conn st => exact goodState_handleMessage now frame gen conn st h

theorem goodState_of_reachable (st : ServerState) (h : Reachable st) : goodState st := by
  induction h with
  | init => exact ⟨List.nodup_nil, List.nodup_nil⟩
  | step _ hstep ih => exact goodState_step hstep ih

theorem validate_denied_state (u r sid fp e : String) (st : ServerState)
    (h : (validateNameOwnership u r sid fp st).1 = .denied e) :
    (validateNameOwnership u r sid fp st).2 = st := by
  cases h1 : mapGet st.usernameOwnership (ownershipKey r u) with
  | none => simp [validateNameOwnership, h1] at h ⊢
  | some owner =>
    cases h2 : mapGet st.activeSessions owner with
    | none => simp [validateNameOwnership, h1, h2] at h ⊢
    | some os =>
      by_cases h3 : owner = sid
      · subst h3
        simp [validateNameOwnership, h1, h2] at h
      · by_cases h4 : os.browserFingerprint = fp
        · simp [validateNameOwnership, h1, h2, h3, h4] at h
        · simp [validateNameOwnership, h1, h2, h3, h4]

/-- C2: `validateNameOwnership` returns allowed exactly when the name is
unclaimed, the owner session is gone (stale entry released first), the
claiming session already owns it, or the caller shares the owner's
browser fingerprint; it returns denied, with the name-taken error,
exactly when a live owner session with a different session id and a
different fingerprint holds the name. -/
theorem validateNameOwnership_characterization (u r sid fp : String) (st : ServerState) :
    ((validateNameOwnership u r sid fp st).1 = .allowed ↔
      mapGet st.usernameOwnership (ownershipKey r u) = none ∨
      (∃ owner, mapGet st.usernameOwnership (ownershipKey r u) = some owner ∧
        (mapGet st.activeSessions owner = none ∨ owner = sid ∨
         ∃ os, mapGet st.activeSessions owner = some os ∧
           os.browserFingerprint = fp))) ∧
    (∀ e, (validateNameOwnership u r sid fp st).1 = .denied e ↔
      (e = nameTakenError u ∧
       ∃ owner os, mapGet st.usernameOwnership (ownershipKey r u) = some owner ∧
         mapGet st.activeSessions owner = some os ∧ owner ≠ sid ∧
         os.browserFingerprint ≠ fp)) ∧
    (∀ owner, mapGet st.usernameOwnership (ownershipKey r u) = some owner →
      mapGet st.activeSessions owner = none →
      (validateNameOwnership u r sid fp st).2 =
        { st with usernameOwnership :=
            mapDelete st.usernameOwnership (ownershipKey r u) }) := by
  cases h1 : mapGet st.usernameOwnership (ownershipKey r u) with
  | none => simp [validateNameOwnership, h1]
  | some owner =>
    cases h2 : mapGet st.activeSessions owner with
    | none => simp [validateNameOwnership, h1, h2]
    | some os =>
      by_cases h3 : owner = sid
      · subst h3
        simp [validateNameOwnership, h1, h2]
      · by_cases h4 : os.browserFingerprint = fp
        · simp [validateNameOwnership, h1, h2, h3, h4]
        · refine ⟨by simp [validateNameOwnership, h1, h2, h3, h4], fun e => ?_,
            fun owner' ho hs => ?_⟩
          · constructor
            · intro he
              have : e = nameTakenError u := by
                simpa [validateNameOwnership, h1, h2, h3, h4] using he.symm
              exact ⟨this, owner, os, rfl, h2, h3, h4⟩
            · rintro ⟨he, -⟩
              simp [validateNameOwnership, h1, h2, h3, h4, he]
          · exfalso
            injection ho with hoo
            rw [hoo] at h2
            rw [hs] at h2
            cases h2

/-- C2 witness: in room `demo`, `alice` owned by live session `S1` with
fingerprint `f1`: a claim from session `S2` with fingerprint `f2` is
denied with the name-taken error, while one from `S2` with fingerprint
`f1` (handoff) is allowed. -/
theorem validateNameOwnership_characterization_witness :
    (validateNameOwnership "alice" "demo" "S2" "f2"
      { activeSessions := [("S1",
          { sessionId := "S1", username := "alice", room := "demo",
            browserFingerprint := "f1", lastSeen := 0, connectionCount := 1 })],
        usernameOwnership := [("demo:alice", "S1")] }).1 =
      .denied (nameTakenError "alice") := by
  have h := ((validateNameOwnership_characterization "alice" "demo" "S2" "f2"
    { activeSessions := [("S1",
        { sessionId := "S1", username := "alice", room := "demo",
          browserFingerprint := "f1", lastSeen := 0, connectionCount := 1 })],
      usernameOwnership := [("demo:alice", "S1")] }).2.1 (nameTakenError "alice"))
  exact h.mpr ⟨rfl, "S1",
    { sessionId := "S1", username := "alice", room := "demo",
      browserFingerprint := "f1", lastSeen := 0, connectionCount := 1 },
    by decide, by decide, by decide, by decide⟩

/-- C1: in every reachable server state the username-ownership map binds
each `room:username` key to at most one session id, and a
`validateNameOwnership` call that returns denied leaves the server state
(both the ownership map and the session map) unchanged. -/
theorem ownership_unique_and_denied_immutable :
    (∀ st : ServerState, Reachable st → ∀ room username sid1 sid2 : String,
        (ownershipKey room username, sid1) ∈ st.usernameOwnership →
        (ownershipKey room username, sid2) ∈ st.usernameOwnership → sid1 = sid2) ∧
    (∀ u r sid fp e : String, ∀ st : ServerState,
        (validateNameOwnership u r sid fp st).1 = .denied e →
        (validateNameOwnership u r sid fp st).2 = st) := by
  constructor
  · intro st hreach room username sid1 sid2 h1 h2
    exact nodup_keys_unique st.usernameOwnership
      (goodState_of_reachable st hreach).2 _ sid1 sid2 h1 h2
  · intro u r sid fp e st h
    exact validate_denied_state u r sid fp e st h

/-- C1 witness: after `alice` joins room `demo` from session `S1`, the
reachable state binds `demo:alice` uniquely, and a concrete denied
validation leaves the state unchanged. -/
theorem ownership_unique_and_denied_immutable_witness :
    ("S1" : String) = "S1" ∧
    (validateNameOwnership "alice" "demo" "S2" "f2"
      { activeSessions := [("S1",
          { sessionId := "S1", username := "alice", room := "demo",
            browserFingerprint := "f1", lastSeen := 0, connectionCount := 1 })],
        usernameOwnership := [("demo:alice", "S1")] }).2 =
      { activeSessions := [("S1",
          { sessionId := "S1", username := "alice", room := "demo",
            browserFingerprint := "f1", lastSeen := 0, connectionCount := 1 })],
        usernameOwnership := [("demo:alice", "S1")] } := by
  constructor
  · exact ownership_unique_and_denied_immutable.1
      (claimUsername "alice" "demo" "S1" "f1" 0 {})
      (Reachable.step Reachable.init (Step.claim "alice" "demo" "S1" "f1" 0 {}))
      "demo" "alice" "S1" "S1" (by decide) (by decide)
  · exact ownership_unique_and_denied_immutable.2 "alice" "demo" "S2" "f2"
      (nameTakenError "alice") _ (by decide)

/-- C10: `claimUsername u2` mutates only the session record of the
claiming session and the ownership entry of `(room, u2)`; an ownership
entry `(room, u1)` with `u1 ≠ u2` held by the same session survives the
claim, and in the post-claim state `u1` is still denied to callers with a
different session id and a different fingerprint. -/
theorem claimUsername_frame (u1 u2 r sid fp : String) (now : Int) (st : ServerState) :
    (∀ k, k ≠ ownershipKey r u2 →
      mapGet (claimUsername u2 r sid fp now st).usernameOwnership k =
        mapGet st.usernameOwnership k) ∧
    (∀ s, s ≠ sid →
      mapGet (claimUsername u2 r sid fp now st).activeSessions s =
        mapGet st.activeSessions s) ∧
    (u1 ≠ u2 → mapGet st.usernameOwnership (ownershipKey r u1) = some sid →
      mapGet (claimUsername u2 r sid fp now st).usernameOwnership (ownershipKey r u1) =
        some sid ∧
      ∀ sid2 fp2 : String, sid2 ≠ sid → fp2 ≠ fp →
        (validateNameOwnership u1 r sid2 fp2 (claimUsername u2 r sid fp now st)).1 =
          .denied (nameTakenError u1)) := by
  refine ⟨fun k hk => ?_, fun s hs => ?_, fun hne hown => ?_⟩
  · simpa [claimUsername] using mapGet_set_ne st.usernameOwnership _ k sid hk
  · simpa [claimUsername] using mapGet_set_ne st.activeSessions _ s _ hs
  · have hkey : ownershipKey r u1 ≠ ownershipKey r u2 :=
      fun h => hne (ownershipKey_inj r u1 u2 h)
    have hown' :
        mapGet (claimUsername u2 r sid fp now st).usernameOwnership (ownershipKey r u1) =
          some sid := by
      simpa [claimUsername] using
        (mapGet_set_ne st.usernameOwnership _ (ownershipKey r u1) sid hkey).trans hown
    refine ⟨hown', fun sid2 fp2 hsid2 hfp2 => ?_⟩
    have hsess :
        mapGet (claimUsername u2 r sid fp now st).activeSessions sid =
          some { sessionId := sid, username := u2, room := r, browserFingerprint := fp,
                 lastSeen := now,
                 connectionCount :=
                   (match mapGet st.activeSessions sid with
                    | some s => s.connectionCount
                    | none => 0) + 1 } := by
      simpa [claimUsername] using mapGet_set_self st.activeSessions sid _
    have hsid2' : ¬(sid = sid2) := fun h => hsid2 h.symm
    have hfp2' : ¬(fp = fp2) := fun h => hfp2 h.symm
    simp [validateNameOwnership, hown', hsess, hsid2', hfp2']

/-- C10 witness: session `S1` claims `bob` in room `demo` after owning
`alice`; `alice` is still owned by `S1` and denied to a different
session/fingerprint. -/
theorem claimUsername_frame_witness :
    mapGet (claimUsername "bob" "demo" "S1" "f1" 5
      { activeSessions := [("S1",
          { sessionId := "S1", username := "alice", room := "demo",
            browserFingerprint := "f1", lastSeen := 0, connectionCount := 1 })],
        usernameOwnership := [("demo:alice", "S1")] }).usernameOwnership
      (ownershipKey "demo" "alice") = some "S1" ∧
    (validateNameOwnership "alice" "demo" "S2" "f2"
      (claimUsername "bob" "demo" "S1" "f1" 5
        { activeSessions := [("S1",
            { sessionId := "S1", username := "alice", room := "demo",
              browserFingerprint := "f1", lastSeen := 0, connectionCount := 1 })],
          usernameOwnership := [("demo:alice", "S1")] })).1 =
      .denied (nameTakenError "alice") := by
  have h := (claimUsername_frame "alice" "bob" "demo" "S1" "f1" 5
    { activeSessions := [("S1",
        { sessionId := "S1", username := "alice", room := "demo",
          browserFingerprint := "f1", lastSeen := 0, connectionCount := 1 })],
      usernameOwnership := [("demo:alice", "S1")] }).2.2
    (by decide) (by decide)
  exact ⟨h.1, h.2 "S2" "f2" (by decide) (by decide)⟩

/-- C3 counterexample: a reachable state where `alice` in room `demo` is
owned by session `S1` whose `lastSeen` is more than 30 minutes old, yet —
because the expiry sweep has not run — the next `validateNameOwnership`
call from a different session and fingerprint is denied, not allowed. -/
theorem stale_owner_still_denied_cex :
    Reachable
      { activeSessions := [("S1",
          { sessionId := "S1", username := "alice", room := "demo",
            browserFingerprint := "f1", lastSeen := 0, connectionCount := 1 })],
        usernameOwnership := [("demo:alice", "S1")] } ∧
    SESSION_TIMEOUT < (1800001 : Int) - 0 ∧
    (validateNameOwnership "alice" "demo" "S2" "f2"
      { activeSessions := [("S1",
          { sessionId := "S1", username := "alice", room := "demo",
            browserFingerprint := "f1", lastSeen := 0, connectionCount := 1 })],
        usernameOwnership := [("demo:alice", "S1")] }).1 ≠ .allowed := by
  refine ⟨?_, by decide, by decide⟩
  have h := Reachable.step Reachable.init (Step.claim "alice" "demo" "S1" "f1" 0 {})
  have he : claimUsername "alice" "demo" "S1" "f1" 0 {} =
      { activeSessions := [("S1",
          { sessionId := "S1", username := "alice", room := "demo",
            browserFingerprint := "f1", lastSeen := 0, connectionCount := 1 })],
        usernameOwnership := [("demo:alice", "S1")] } := by decide
  rwa [he] at h

theorem mapGet_delete_of_none {K V : Type} [DecidableEq K] (l : List (K × V)) (k k' : K)
    (h : mapGet l k = none) : mapGet (mapDelete l k') k = none := by
  rw [mapGet_eq_none_iff] at h ⊢
  exact fun hm => h ((keys_mapDelete_sublist l k').subset hm)

theorem sweepStep_sessions_none (now : Int) (st : ServerState) (e : String × UserSession)
    (k : String) (h : mapGet st.activeSessions k = none) :
    mapGet (sweepStep now st e).activeSessions k = none := by
  unfold sweepStep
  by_cases h1 : SESSION_TIMEOUT < now - e.2.lastSeen
  · by_cases h2 :
      mapGet st.usernameOwnership (ownershipKey e.2.room e.2.username) = some e.1 <;>
      simp [if_pos h1, h2, mapGet_delete_of_none _ _ _ h]
  · simp [if_neg h1, h]

theorem sweepStep_own_none (now : Int) (st : ServerState) (e : String × UserSession)
    (k : String) (h : mapGet st.usernameOwnership k = none) :
    mapGet (sweepStep now st e).usernameOwnership k = none := by
  unfold sweepStep
  by_cases h1 : SESSION_TIMEOUT < now - e.2.lastSeen
  · by_cases h2 :
      mapGet st.usernameOwnership (ownershipKey e.2.room e.2.username) = some e.1 <;>
      simp [if_pos h1, h2, mapGet_delete_of_none _ _ _ h, h]
  · simp [if_neg h1, h]

theorem sweep_fold_sessions_none (now : Int) (entries : List (String × UserSession))
    (st : ServerState) (k : String) (h : mapGet st.activeSessions k = none) :
    mapGet ((entries.foldl (sweepStep now) st)).activeSessions k = none := by
  induction entries generalizing st with
  | nil => exact h
  | cons e rest ih => exact ih _ (sweepStep_sessions_none now st e k h)

theorem sweep_fold_own_none (now : Int) (entries : List (String × UserSession))
    (st : ServerState) (k : String) (h : mapGet st.usernameOwnership k = none) :
    mapGet ((entries.foldl (sweepStep now) st)).usernameOwnership k = none := by
  induction entries generalizing st with
  | nil => exact h
  | cons e rest ih => exact ih _ (sweepStep_own_none now st e k h)

theorem sweepStep_own_some (now : Int) (st : ServerState) (e : String × UserSession)
    (k sid : String) (hv : mapGet st.usernameOwnership k = some sid) (hne : e.1 ≠ sid) :
    mapGet (sweepStep now st e).usernameOwnership k = some sid := by
  unfold sweepStep
  by_cases h1 : SESSION_TIMEOUT < now - e.2.lastSeen
  · by_cases h2 :
      mapGet st.usernameOwnership (ownershipKey e.2.room e.2.username) = some e.1
    · have hkne : k ≠ ownershipKey e.2.room e.2.username := by
        intro he
        rw [he] at hv
        rw [hv] at h2
        injection h2 with h2
        exact hne h2.symm
      simp [if_pos h1, if_pos h2, mapGet_delete_ne st.usernameOwnership _ k hkne, hv]
    · simp [if_pos h1, if_neg h2, hv]
  · simp [if_neg h1, hv]

theorem sweep_fold_own_some (now : Int) (entries : List (String × UserSession))
    (st : ServerState) (k sid : String)
    (hv : mapGet st.usernameOwnership k = some sid)
    (hne : ∀ e ∈ entries, e.1 ≠ sid) :
    mapGet ((entries.foldl (sweepStep now) st)).usernameOwnership k = some sid := by
  induction entries generalizing st with
  | nil => exact hv
  | cons e rest ih =>
    exact ih _ (sweepStep_own_some now st e k sid hv (hne e (List.mem_cons_self e rest)))
      (fun e' he' => hne e' (List.mem_cons_of_mem e he'))

/-- C3 (amended): a session whose `lastSeen` is older than the 30-minute
timeout is removed by the expiry sweep, which also releases its ownership
entry; after the sweep every `validateNameOwnership` call for that name
returns allowed without further mutation, so the release happens exactly
once.  (As stated the claim fails: `validateNameOwnership` itself never
consults `lastSeen`, so before the sweep runs a stale owner still denies —
see the counterexample.) -/
theorem expired_session_released_by_sweep (now : Int) (st : ServerState)
    (sid : String) (s : UserSession)
    (hgood : goodState st)
    (hmem : (sid, s) ∈ st.activeSessions)
    (hexp : SESSION_TIMEOUT < now - s.lastSeen)
    (hown : mapGet st.usernameOwnership (ownershipKey s.room s.username) = some sid) :
    mapGet (sweepSessions now st).activeSessions sid = none ∧
    mapGet (sweepSessions now st).usernameOwnership
      (ownershipKey s.room s.username) = none ∧
    ∀ sid2 fp2 : String,
      validateNameOwnership s.username s.room sid2 fp2 (sweepSessions now st) =
        (.allowed, sweepSessions now st) := by
  obtain ⟨l1, l2, hsplit⟩ := List.append_of_mem hmem
  have hn1 : ∀ e ∈ l1, e.1 ≠ sid := by
    intro e he heq
    have := hgood.1
    rw [hsplit] at this
    simp only [List.map_append, List.map_cons] at this
    have hd := (List.nodup_append.mp this).2.2
    exact hd (heq ▸ List.mem_map_of_mem Prod.fst he) (by simp)
  have hn2 : ∀ e ∈ l2, e.1 ≠ sid := by
    intro e he heq
    have := hgood.1
    rw [hsplit] at this
    simp only [List.map_append, List.map_cons] at this
    have hd := (List.nodup_append.mp this).2.1
    have : ¬ sid ∈ l2.map Prod.fst := by
      have hnodup := List.nodup_cons.mp hd
      exact hnodup.1
    exact this (heq ▸ List.mem_map_of_mem Prod.fst he)
  have hgood1 : goodState (l1.foldl (sweepStep now) st) := goodState_sweep_fold now l1 st hgood
  have hown1 : mapGet (l1.foldl (sweepStep now) st).usernameOwnership
      (ownershipKey s.room s.username) = some sid :=
    sweep_fold_own_some now l1 st _ sid hown hn1
  set st1 := l1.foldl (sweepStep now) st with hst1
  have hstep : sweepStep now st1 (sid, s) =
      { activeSessions := mapDelete st1.activeSessions sid,
        usernameOwnership :=
          mapDelete st1.usernameOwnership (ownershipKey s.room s.username) } := by
    simp [sweepStep, hexp, hown1]
  have hfold : sweepSessions now st =
      l2.foldl (sweepStep now) (sweepStep now st1 (sid, s)) := by
    unfold sweepSessions
    rw [hsplit, List.foldl_append, List.foldl_cons]
  have hs2sess : mapGet (sweepStep now st1 (sid, s)).activeSessions sid = none := by
    rw [hstep]
    exact mapGet_delete_self _ _ hgood1.1
  have hs2own : mapGet (sweepStep now st1 (sid, s)).usernameOwnership
      (ownershipKey s.room s.username) = none := by
    rw [hstep]
    exact mapGet_delete_self _ _ hgood1.2
  have hfin1 : mapGet (sweepSessions now st).activeSessions sid = none := by
    rw [hfold]
    exact sweep_fold_sessions_none now l2 _ sid hs2sess
  have hfin2 : mapGet (sweepSessions now st).usernameOwnership
      (ownershipKey s.room s.username) = none := by
    rw [hfold]
    exact sweep_fold_own_none now l2 _ _ hs2own
  exact ⟨hfin1, hfin2, fun sid2 fp2 => by simp [validateNameOwnership, hfin2]⟩

/-- C3 witness: a concrete state with an expired owner session; the sweep
removes the session, releases the ownership entry, and the subsequent
validation is allowed. -/
theorem expired_session_released_by_sweep_witness :
    mapGet (sweepSessions 1800001
      { activeSessions := [("S1",
          { sessionId := "S1", username := "alice", room := "demo",
            browserFingerprint := "f1", lastSeen := 0, connectionCount := 1 })],
        usernameOwnership := [("demo:alice", "S1")] }).activeSessions "S1" = none ∧
    mapGet (sweepSessions 1800001
      { activeSessions := [("S1",
          { sessionId := "S1", username := "alice", room := "demo",
            browserFingerprint := "f1", lastSeen := 0, connectionCount := 1 })],
        usernameOwnership := [("demo:alice", "S1")] }).usernameOwnership
      (ownershipKey "demo" "alice") = none ∧
    (validateNameOwnership "alice" "demo" "S2" "f2"
      (sweepSessions 1800001
        { activeSessions := [("S1",
            { sessionId := "S1", username := "alice", room := "demo",
              browserFingerprint := "f1", lastSeen := 0, connectionCount := 1 })],
          usernameOwnership := [("demo:alice", "S1")] })).1 = .allowed := by
  have h := expired_session_released_by_sweep 1800001
    { activeSessions := [("S1",
        { sessionId := "S1", username := "alice", room := "demo",
          browserFingerprint := "f1", lastSeen := 0, connectionCount := 1 })],
      usernameOwnership := [("demo:alice", "S1")] }
    "S1"
    { sessionId := "S1", username := "alice", room := "demo",
      browserFingerprint := "f1", lastSeen := 0, connectionCount := 1 }
    (by constructor <;> decide) (by decide) (by decide) (by decide)
  exact ⟨h.1, h.2.1, by rw [h.2.2 "S2" "f2"]⟩

/-- C4: (1) a frame arriving less than 50ms after the connection's
previously accepted frame is dropped silently, with no state change and
no effects; (2) once 50 frames have been counted in a live 60-second
window, every further frame in that window is dropped without any
persistence or fanout side effect (only the attempt counter moves, and no
acceptance is recorded); (3) the window counter resets to a fresh count
when the window's start time is more than 60 seconds in the past. -/
theorem rateLimit_spec (now : Int) (frame : Option WSMessage) (genSessionId : String)
    (conn : Conn) (st : ServerState) :
    (∀ t : Int, conn.lastMessageTime = some t → t ≠ 0 → now - t < 50 →
      handleMessage now frame genSessionId conn st = (conn, st, [])) ∧
    (∀ t0 : Int, ∀ n : Nat, conn.lastResetTime = some t0 → t0 ≠ 0 →
      now - t0 ≤ 60000 → conn.messageCount = some n → 50 ≤ n →
      (handleMessage now frame genSessionId conn st).2.1 = st ∧
      (handleMessage now frame genSessionId conn st).2.2 = [] ∧
      (handleMessage now frame genSessionId conn st).1.lastMessageTime =
        conn.lastMessageTime) ∧
    (∀ t0 : Int, conn.lastResetTime = some t0 → t0 ≠ 0 → 60000 < now - t0 →
      (jsTruthyInt conn.lastMessageTime &&
        decide (now - conn.lastMessageTime.getD 0 < 50)) = false →
      (checkRateLimit now conn).2.messageCount = some 1 ∧
      (checkRateLimit now conn).2.lastResetTime = some now) := by
  refine ⟨fun t ht ht0 hlt => ?_, fun t0 n ht0 ht00 hle hc hn => ?_,
    fun t0 ht0 ht00 hgt hmin => ?_⟩
  · have hguard : (jsTruthyInt conn.lastMessageTime &&
        decide (now - conn.lastMessageTime.getD 0 < 50)) = true := by
      rw [ht]
      simp [jsTruthyInt, ht0, hlt]
    simp [handleMessage, checkRateLimit, hguard]
  · by_cases hguard : (jsTruthyInt conn.lastMessageTime &&
        decide (now - conn.lastMessageTime.getD 0 < 50)) = true
    · simp [handleMessage, checkRateLimit, hguard]
    · have hguard' : (jsTruthyInt conn.lastMessageTime &&
          decide (now - conn.lastMessageTime.getD 0 < 50)) = false := by
        simpa using hguard
      have hnoreset : (!jsTruthyInt conn.lastResetTime ||
          decide (60000 < now - conn.lastResetTime.getD 0)) = false := by
        rw [ht0]
        simp [jsTruthyInt, ht00, hle]
      have h51 : 50 < n + 1 := by omega
      have hcrl : checkRateLimit now conn =
          (false, { conn with messageCount := some (n + 1) }) := by
        simp [checkRateLimit, hguard', hnoreset, hc, h51]
      simp [handleMessage, hcrl]
  · have hreset : (!jsTruthyInt conn.lastResetTime ||
        decide (60000 < now - conn.lastResetTime.getD 0)) = true := by
      rw [ht0]
      simp [jsTruthyInt, hgt]
    simp [checkRateLimit, hmin, hreset]

/-- C4 witness: a frame 30ms after the last accepted one is dropped with
no effect; the 51st frame of a window is dropped with no state or effect
change; a window older than 60s resets the counter on the next frame. -/
theorem rateLimit_spec_witness :
    handleMessage 1030 none "g"
      { room := "demo", lastMessageTime := some 1000, messageCount := some 3,
        lastResetTime := some 900 } {} =
      ({ room := "demo", lastMessageTime := some 1000, messageCount := some 3,
         lastResetTime := some 900 }, {}, []) ∧
    (handleMessage 2000 none "g"
      { room := "demo", lastMessageTime := some 1000, messageCount := some 50,
        lastResetTime := some 1000 } {}).2.2 = [] ∧
    (checkRateLimit 70000
      { room := "demo", messageCount := some 50, lastResetTime := some 1000 }).2.messageCount =
      some 1 := by
  refine ⟨?_, ?_, ?_⟩
  · exact (rateLimit_spec 1030 none "g"
      { room := "demo", lastMessageTime := some 1000, messageCount := some 3,
        lastResetTime := some 900 } {}).1 1000 rfl (by decide) (by decide)
  · exact ((rateLimit_spec 2000 none "g"
      { room := "demo", lastMessageTime := some 1000, messageCount := some 50,
        lastResetTime := some 1000 } {}).2.1 1000 50 rfl (by decide) (by decide) rfl
      (by decide)).2.1
  · exact ((rateLimit_spec 70000 none "g"
      { room := "demo", messageCount := some 50, lastResetTime := some 1000 } {}).2.2
      1000 rfl (by decide) (by decide) (by decide)).1

/-- C5 counterexample: a frame whose content is 11 consecutive newline
characters — 11 identical consecutive characters, every one of them
non-alphanumeric and not a space — is persisted and broadcast by the
handler: the run regex `/(.)\1{10,}/` cannot match line terminators
(`.` excludes them) and `\s` counts newlines as whitespace, so all three
heuristics pass. -/
theorem newline_run_persisted_cex :
    (String.mk (List.replicate 11 '\n')).data.length = 11 ∧
    ((String.mk (List.replicate 11 '\n')).data.filter
        (fun ch => !isAsciiAlphanum ch && ch ≠ ' ')).length = 11 ∧
    ((handleMessage 1000
        (some { type := .newMessage, username := "bob", room := "demo",
                content := some (String.mk (List.replicate 11 '\n')),
                yPosition := some 20 })
        "g" { room := "demo", messageCount := some 0, lastResetTime := some 1000 }
        {}).2.2.filter isAppend) ≠ [] := by decide

theorem contentRejected_iff (c : String) :
    contentRejected (some c) = true ↔
      c ≠ "" ∧ (200 < c.data.length ∨ hasLongRun c.data = true ∨
        c.data.length < 2 * specialCount c.data) := by
  unfold contentRejected
  dsimp only
  split_ifs with h1 h2 h3 h4 <;> simp_all

theorem contentRejected_of_bad (c : String)
    (hbad : 200 < c.data.length ∨ hasLongRun c.data = true ∨
            c.data.length < 2 * specialCount c.data) :
    contentRejected (some c) = true := by
  have hne : c ≠ "" := by
    intro h
    subst h
    rcases hbad with h | h | h
    · simp [String.data] at h
    · simp [String.data, hasLongRun] at h
    · simp [String.data, specialCount] at h
  exact (contentRejected_iff c).mpr ⟨hne, hbad⟩

theorem finishMessage_rejected (now : Int) (m : WSMessage) (conn : Conn)
    (st : ServerState) (h : contentRejected m.content = true) :
    finishMessage now m conn st = (conn, st, []) := by
  simp [finishMessage, h]

theorem handleFrame_rejected_no_effects (now : Int) (m : WSMessage) (gen : String)
    (conn : Conn) (st : ServerState) (h : contentRejected m.content = true) :
    ((handleFrame now m gen conn st).2.2.filter isPersistOrFanout) = [] := by
  unfold handleFrame
  by_cases h1 : m.username = ""
  · simp [h1, finishMessage_rejected now m conn st h]
  · by_cases h2 : m.type = MsgType.join
    · simp only [if_neg h1, if_pos h2]
      cases hv : validateNameOwnership m.username m.room
          (jsOrS (m.sessionId.getD "") gen)
          (jsOrS (m.browserFingerprint.getD "") "unknown") st with
      | mk res st1 =>
        cases res with
        | denied err => simp [isPersistOrFanout]
        | allowed => simp [finishMessage_rejected now m _ _ h]
    · simp only [if_neg h1, if_neg h2]
      by_cases h4 :
          (jsTruthyStr conn.sessionId && jsTruthyStr conn.browserFingerprint) = true
      · simp only [if_pos h4]
        cases hv : validateNameOwnership m.username m.room (conn.sessionId.getD "")
            (conn.browserFingerprint.getD "") st with
        | mk res st1 =>
          cases res with
          | denied err => simp [isPersistOrFanout]
          | allowed => simp [finishMessage_rejected now m conn st1 h]
      · simp only [if_neg h4]
        simp [finishMessage_rejected now m conn st h]

/-- C5 (amended): a frame whose content has length over 200, or contains
11 or more identical consecutive characters none of which is a line
terminator, or in which non-alphanumeric non-whitespace characters exceed
50% of the length, produces no Message Store append and no broadcast —
only at most a unicast `nameError`. -/
theorem invalid_content_never_persisted_or_broadcast (now : Int)
    (frame : Option WSMessage) (gen : String) (conn : Conn) (st : ServerState)
    (m : WSMessage) (c : String) (hf : frame = some m) (hc : m.content = some c)
    (hbad : 200 < c.data.length ∨ hasLongRun c.data = true ∨
            c.data.length < 2 * specialCount c.data) :
    ((handleMessage now frame gen conn st).2.2.filter isPersistOrFanout) = [] := by
  subst hf
  have hrej : contentRejected m.content = true := hc ▸ contentRejected_of_bad c hbad
  unfold handleMessage
  cases hr : checkRateLimit now conn with
  | mk ok conn1 =>
    cases ok
    · simp
    · simpa using handleFrame_rejected_no_effects now m gen conn1 st hrej

/-- C5 witness: a frame whose content is 11 consecutive `a` characters is
dropped with no append and no broadcast. -/
theorem invalid_content_never_persisted_or_broadcast_witness :
    ((handleMessage 1000
        (some { type := .newMessage, username := "bob", room := "demo",
                content := some "aaaaaaaaaaa", yPosition := some 20 })
        "g" { room := "demo", messageCount := some 0, lastResetTime := some 1000 }
        {}).2.2.filter isPersistOrFanout) = [] :=
  invalid_content_never_persisted_or_broadcast 1000
    (some { type := .newMessage, username := "bob", room := "demo",
            content := some "aaaaaaaaaaa", yPosition := some 20 })
    "g" { room := "demo", messageCount := some 0, lastResetTime := some 1000 } {}
    { type := .newMessage, username := "bob", room := "demo",
      content := some "aaaaaaaaaaa", yPosition := some 20 }
    "aaaaaaaaaaa" rfl rfl (Or.inr (Or.inl (by decide)))

/-- C6 counterexample: ingesting `{hnId: 42, title: "Hello"}` — final text
`"Hello"` of length 5 — emits zero `keystroke` frames, not 5: the relay
has no typing playback loop; it persists and broadcasts the final message
in one step. -/
theorem relay_emits_no_keystroke_frames_cex :
    (relayMessageText { hnId := some 42, title := some "Hello" } 42).data.length = 5 ∧
    ((relayHockerItem { hnId := some 42, title := some "Hello" } "demo" 20 150 []).2.filter
        isKeystrokeBroadcast).length = 0 ∧
    ((relayHockerItem { hnId := some 42, title := some "Hello" } "demo" 20 150 []).2.filter
        isKeystrokeBroadcast).length ≠
      (relayMessageText { hnId := some 42, title := some "Hello" } 42).data.length := by
  decide

/-- C6 (amended): ingesting a valid, non-duplicate external item emits no
`keystroke` frames at all; it produces exactly one Message Store append
followed by exactly one `newMessage` broadcast, both carrying the
computed final content, with the broadcast marked server-prepared. -/
theorem relayHockerItem_effects (item : HockerItem) (hnId : Int) (room : String)
    (randY randX : Int) (ledger : List (Int × String))
    (hid : item.hnId = some hnId)
    (hnew : mapGet ledger hnId ≠ some (itemVersion item hnId)) :
    (relayHockerItem item room randY randX ledger).2 =
      [.append (relayInsert item hnId room randY randX),
       .broadcast room (relayBroadcastFrame item hnId room randY randX)] ∧
    ((relayHockerItem item room randY randX ledger).2.filter isKeystrokeBroadcast) = [] ∧
    (relayInsert item hnId room randY randX).content = relayMessageText item hnId ∧
    (relayBroadcastFrame item hnId room randY randX).content =
      some (relayMessageText item hnId) ∧
    (relayBroadcastFrame item hnId room randY randX).serverPrepared = some true := by
  have heff : (relayHockerItem item room randY randX ledger).2 =
      [.append (relayInsert item hnId room randY randX),
       .broadcast room (relayBroadcastFrame item hnId room randY randX)] := by
    simp [relayHockerItem, hid, hnew]
  refine ⟨heff, ?_, ?_, ?_, ?_⟩
  · rw [heff]
    simp [isKeystrokeBroadcast, relayBroadcastFrame]
  · simp only [relayInsert]
  · simp only [relayBroadcastFrame]
  · simp only [relayBroadcastFrame]

/-- C6 witness: the concrete item `{hnId: 42, title: "Hello"}` ingested
into an empty ledger produces exactly the append-then-broadcast pair with
content `"Hello"`. -/
theorem relayHockerItem_effects_witness :
    (relayHockerItem { hnId := some 42, title := some "Hello" } "demo" 20 150 []).2 =
      [.append (relayInsert { hnId := some 42, title := some "Hello" } 42 "demo" 20 150),
       .broadcast "demo"
         (relayBroadcastFrame { hnId := some 42, title := some "Hello" } 42 "demo" 20 150)] ∧
    relayMessageText { hnId := some 42, title := some "Hello" } 42 = "Hello" := by
  refine ⟨(relayHockerItem_effects { hnId := some 42, title := some "Hello" } 42 "demo"
    20 150 [] rfl (by decide)).1, by decide⟩

/-- C7: ingesting an external item whose version fingerprint (joined over
`hnId`, `type`, `title`, `text`, `url`, `sourceUrl`) equals the
last-seen one for that id is a no-op: the dedup ledger is unchanged and
no append or broadcast is emitted. -/
theorem relayHockerItem_duplicate_noop (item : HockerItem) (hnId : Int) (room : String)
    (randY randX : Int) (ledger : List (Int × String))
    (hid : item.hnId = some hnId)
    (hdup : mapGet ledger hnId = some (itemVersion item hnId)) :
    relayHockerItem item room randY randX ledger = (ledger, []) := by
  simp [relayHockerItem, hid, hdup]

/-- C7 witness: re-ingesting the unchanged item 42 leaves the ledger
untouched and emits nothing. -/
theorem relayHockerItem_duplicate_noop_witness :
    relayHockerItem { hnId := some 42, title := some "Hello" } "demo" 20 150
      [(42, itemVersion { hnId := some 42, title := some "Hello" } 42)] =
      ([(42, itemVersion { hnId := some 42, title := some "Hello" } 42)], []) :=
  relayHockerItem_duplicate_noop { hnId := some 42, title := some "Hello" } 42 "demo"
    20 150 [(42, itemVersion { hnId := some 42, title := some "Hello" } 42)]
    rfl (by decide)

/-- C9 counterexample: a payload that duplicates the last-seen version of
item 42 is not rejected: the endpoint acknowledges it with
`{ok: true, hnId: 42, room}` (while silently relaying nothing), contrary
to the claim that duplicates get a client-visible error. -/
theorem duplicate_payload_acknowledged_cex :
    postHnItem "" "" "global"
      (some { item := some { hnId := some 42, title := some "Hello" } })
      20 150 [(42, itemVersion { hnId := some 42, title := some "Hello" } 42)] =
      (.ok 42 "global",
       [(42, itemVersion { hnId := some 42, title := some "Hello" } 42)], []) := by
  decide

/-- C9 (amended): the ingestion endpoint rejects invalid requests
synchronously with a client-visible error — 401 on a bad shared-secret
token, 400 on a missing item or missing/non-finite id — with no side
effects; every valid payload (duplicate or not) is acknowledged with the
accepted id and room, and a duplicate payload is acknowledged while
relaying nothing. -/
theorem postHnItem_spec (pushToken reqToken defaultRoom : String)
    (payload : Option RelayPayload) (randY randX : Int)
    (ledger : List (Int × String)) :
    (pushToken ≠ "" → reqToken ≠ pushToken →
      postHnItem pushToken reqToken defaultRoom payload randY randX ledger =
        (.unauthorized "Unauthorized relay token", ledger, [])) ∧
    ((pushToken = "" ∨ reqToken = pushToken) →
      (payload = none ∨ (∃ p, payload = some p ∧ p.item = none) ∨
       (∃ p item, payload = some p ∧ p.item = some item ∧ item.hnId = none)) →
      postHnItem pushToken reqToken defaultRoom payload randY randX ledger =
        (.badRequest "Expected payload { item: { hnId, ... } }", ledger, [])) ∧
    (∀ p item hnId, payload = some p → p.item = some item → item.hnId = some hnId →
      (pushToken = "" ∨ reqToken = pushToken) →
      (postHnItem pushToken reqToken defaultRoom payload randY randX ledger).1 =
        .ok hnId (jsOrS (p.room.getD "") defaultRoom) ∧
      (mapGet ledger hnId = some (itemVersion item hnId) →
        postHnItem pushToken reqToken defaultRoom payload randY randX ledger =
          (.ok hnId (jsOrS (p.room.getD "") defaultRoom), ledger, []))) := by
  have hauthSplit : ∀ (hok : pushToken = "" ∨ reqToken = pushToken),
      ¬(pushToken ≠ "" ∧ reqToken ≠ pushToken) := by
    rintro (h | h) ⟨h1, h2⟩
    · exact h1 h
    · exact h2 h
  refine ⟨fun h1 h2 => ?_, fun hok hbad => ?_, fun p item hnId hp hi hid hok => ?_⟩
  · simp [postHnItem, h1, h2]
  · rcases hbad with h | ⟨p, hp, hitem⟩ | ⟨p, item, hp, hitem, hid⟩ <;>
      simp [postHnItem, hauthSplit hok, *]
  · subst hp
    constructor
    · simp [postHnItem, hauthSplit hok, hi, hid]
    · intro hdup
      simp [postHnItem, hauthSplit hok, hi, hid,
        relayHockerItem_duplicate_noop item hnId _ randY randX ledger hid hdup]

/-- C9 witness: bad token rejected with 401; missing item rejected with
400; a valid duplicate payload acknowledged with its id and room. -/
theorem postHnItem_spec_witness :
    postHnItem "secret" "wrong" "global"
      (some { item := some { hnId := some 42, title := some "Hello" } })
      20 150 [] = (.unauthorized "Unauthorized relay token", [], []) ∧
    postHnItem "" "" "global" (some { item := none }) 20 150 [] =
      (.badRequest "Expected payload { item: { hnId, ... } }", [], []) ∧
    (postHnItem "" "" "global"
      (some { item := some { hnId := some 42, title := some "Hello" } })
      20 150 []).1 = .ok 42 "global" := by
  refine ⟨?_, ?_, ?_⟩
  · exact (postHnItem_spec "secret" "wrong" "global"
      (some { item := some { hnId := some 42, title := some "Hello" } })
      20 150 []).1 (by decide) (by decide)
  · exact (postHnItem_spec "" "" "global" (some { item := none }) 20 150 []).2.1
      (Or.inl rfl) (Or.inr (Or.inl ⟨{ item := none }, rfl, rfl⟩))
  · exact ((postHnItem_spec "" "" "global"
      (some { item := some { hnId := some 42, title := some "Hello" } })
      20 150 []).2.2 { item := some { hnId := some 42, title := some "Hello" } }
      { hnId := some 42, title := some "Hello" } 42 rfl rfl rfl (Or.inl rfl)).1

/-! ## Sorting lemmas for the Message Store -/

theorem length_insertByTsDesc (m : StoredMessage) (l : List StoredMessage) :
    (insertByTsDesc m l).length = l.length + 1 := by
  induction l with
  | nil => rfl
  | cons x rest ih =>
    by_cases h : x.timestamp ≤ m.timestamp <;> simp [insertByTsDesc, h, ih]

theorem length_sortByTsDesc (l : List StoredMessage) :
    (sortByTsDesc l).length = l.length := by
  induction l with
  | nil => rfl
  | cons x rest ih =>
    simp only [sortByTsDesc, List.foldr_cons] at *
    rw [length_insertByTsDesc, ih, List.length_cons]

theorem mem_insertByTsDesc (x m : StoredMessage) (l : List StoredMessage) :
    x ∈ insertByTsDesc m l ↔ x = m ∨ x ∈ l := by
  induction l with
  | nil => simp [insertByTsDesc]
  | cons y rest ih =>
    by_cases h : y.timestamp ≤ m.timestamp
    · simp [insertByTsDesc, h]
    · simp [insertByTsDesc, h, ih]
      tauto

theorem mem_sortByTsDesc (x : StoredMessage) (l : List StoredMessage) :
    x ∈ sortByTsDesc l ↔ x ∈ l := by
  induction l with
  | nil => simp [sortByTsDesc]
  | cons y rest ih =>
    simp only [sortByTsDesc, List.foldr_cons] at *
    rw [mem_insertByTsDesc, ih, List.mem_cons]

theorem sorted_insertByTsDesc (m : StoredMessage) (l : List StoredMessage)
    (h : l.Pairwise (fun a b => b.timestamp ≤ a.timestamp)) :
    (insertByTsDesc m l).Pairwise (fun a b => b.timestamp ≤ a.timestamp) := by
  induction l with
  | nil => simp [insertByTsDesc]
  | cons x rest ih =>
    rcases List.pairwise_cons.mp h with ⟨hx, hrest⟩
    by_cases hc : x.timestamp ≤ m.timestamp
    · simp only [insertByTsDesc, if_pos hc]
      refine List.pairwise_cons.mpr ⟨?_, h⟩
      intro y hy
      rcases List.mem_cons.mp hy with hy | hy
      · exact hy ▸ hc
      · exact le_trans (hx y hy) hc
    · simp only [insertByTsDesc, if_neg hc]
      refine List.pairwise_cons.mpr ⟨?_, ih hrest⟩
      intro y hy
      rcases (mem_insertByTsDesc y m rest).mp hy with hy | hy
      · subst hy
        omega
      · exact hx y hy

theorem sorted_sortByTsDesc (l : List StoredMessage) :
    (sortByTsDesc l).Pairwise (fun a b => b.timestamp ≤ a.timestamp) := by
  induction l with
  | nil => simp [sortByTsDesc]
  | cons x rest ih => exact sorted_insertByTsDesc x _ ih

/-- C8: `getRecentMessages room limit` returns exactly
`min limit (stored-for-room)` messages, all of them stored messages of the
room, in non-decreasing (chronological) timestamp order, and they are the
most recent ones: every stored message of the room left out has a
timestamp no larger than every returned one. -/
theorem getRecentMessages_spec (store : List StoredMessage) (room : String)
    (limit : Nat) :
    (getRecentMessages store room limit).length =
      min limit (store.filter (fun m => m.room = room)).length ∧
    (getRecentMessages store room limit).Pairwise
      (fun a b => a.timestamp ≤ b.timestamp) ∧
    (∀ m ∈ getRecentMessages store room limit,
      m ∈ store.filter (fun m2 => m2.room = room)) ∧
    (∀ m ∈ store.filter (fun m2 => m2.room = room),
      m ∉ getRecentMessages store room limit →
      ∀ x ∈ getRecentMessages store room limit, m.timestamp ≤ x.timestamp) := by
  set filtered := store.filter (fun m => m.room = room) with hfiltered
  set sorted := sortByTsDesc filtered with hsorted
  have hsortedP : sorted.Pairwise (fun a b => b.timestamp ≤ a.timestamp) :=
    sorted_sortByTsDesc filtered
  have htakeP : (sorted.take limit).Pairwise (fun a b => b.timestamp ≤ a.timestamp) :=
    hsortedP.sublist (List.take_sublist limit sorted)
  refine ⟨?_, ?_, ?_, ?_⟩
  · simp only [getRecentMessages, ← hfiltered, ← hsorted, List.length_reverse,
      List.length_take]
    rw [hsorted, length_sortByTsDesc]
  · exact List.pairwise_reverse.mpr htakeP
  · intro m hm
    rw [getRecentMessages, List.mem_reverse] at hm
    exact (mem_sortByTsDesc m filtered).mp ((List.take_sublist limit sorted).subset hm)
  · intro m hmf hmnot x hx
    rw [getRecentMessages, List.mem_reverse] at hx hmnot
    have hmsorted : m ∈ sorted := (mem_sortByTsDesc m filtered).mpr hmf
    have hmdrop : m ∈ sorted.drop limit := by
      rcases List.mem_append.mp
        ((List.take_append_drop limit sorted).symm ▸ hmsorted) with h | h
      · exact absurd h hmnot
      · exact h
    have hP : (sorted.take limit ++ sorted.drop limit).Pairwise
        (fun a b => b.timestamp ≤ a.timestamp) := by
      rw [List.take_append_drop]
      exact hsortedP
    exact (List.pairwise_append.mp hP).2.2 x hx m hmdrop

/-- C8 witness: with three stored `demo` messages (timestamps 10, 30, 20)
and limit 1, the excluded timestamp-10 message is no newer than the
returned timestamp-30 one, and exactly one message is returned. -/
theorem getRecentMessages_spec_witness :
    (getRecentMessages
      [{ id := 1, username := "a", content := "m1", room := "demo", timestamp := 10,
         xPosition := 0, yPosition := 0 },
       { id := 2, username := "a", content := "m2", room := "demo", timestamp := 30,
         xPosition := 0, yPosition := 0 },
       { id := 3, username := "a", content := "m3", room := "demo", timestamp := 20,
         xPosition := 0, yPosition := 0 }] "demo" 1).length = 1 ∧
    (10 : Int) ≤ 30 := by
  constructor
  · exact (getRecentMessages_spec
      [{ id := 1, username := "a", content := "m1", room := "demo", timestamp := 10,
         xPosition := 0, yPosition := 0 },
       { id := 2, username := "a", content := "m2", room := "demo", timestamp := 30,
         xPosition := 0, yPosition := 0 },
       { id := 3, username := "a", content := "m3", room := "demo", timestamp := 20,
         xPosition := 0, yPosition := 0 }] "demo" 1).1
  · have h := (getRecentMessages_spec
      [{ id := 1, username := "a", content := "m1", room := "demo", timestamp := 10,
         xPosition := 0, yPosition := 0 },
       { id := 2, username := "a", content := "m2", room := "demo", timestamp := 30,
         xPosition := 0, yPosition := 0 },
       { id := 3, username := "a", content := "m3", room := "demo", timestamp := 20,
         xPosition := 0, yPosition := 0 }] "demo" 1).2.2.2
      { id := 1, username := "a", content := "m1", room := "demo", timestamp := 10,
        xPosition := 0, yPosition := 0 } (by decide) (by decide)
      { id := 2, username := "a", content := "m2", room := "demo", timestamp := 30,
        xPosition := 0, yPosition := 0 } (by decide)
    exact h
